import Mathlib

/-!
Verification of the workflow-engine core against its specification.

The development shallowly embeds the Go sources of the engine:

* `workflow/gateway.go`: the simple-condition evaluator and the gateway
  resolver (`evaluateSimpleCondition`, `ResolveGatewayConditions`);
* `workflow/types.go`: workflow definitions, nodes, gateway conditions;
* the form helpers (`MergeFormInputIntoContext`);
* `db/sqlite.go`: the persistence layer, modelled as a state of instance
  rows and append-only node-execution rows, with each `DB.Exec` statement
  one atomic operation (the source wraps none of them in a transaction);
* the engine (`CreateNewInstance`, the timeout goroutine inside
  `ExecuteNextNode`, `advanceInstance`, `ResumeWorkflowsBySignal`);
* the post-processing of script-condition results (`EvaluateCondition`).

Go's `float64` is modelled by exact fractions (`GoNum`; the claims under
study depend only on which branch of the source is taken, never on
binary rounding), Go `int` by `ℤ`, Go maps `map[string]interface{}` by
association lists with unique keys, and time instants by natural numbers
supplied explicitly where the source calls `time.Now()`.
-/

/-- Exact-fraction model of Go's `float64`: numerator over a positive
denominator (the parsers below only ever produce powers of ten).
Comparisons are by cross-multiplication. -/
structure GoNum where
  num : Int
  den : Nat
deriving Repr, DecidableEq

/-- Value-level `≤` on `GoNum` (cross-multiplication). -/
def GoNum.le (a b : GoNum) : Bool :=
  decide (a.num * (b.den : Int) ≤ b.num * (a.den : Int))

/-- Value-level `<` on `GoNum`. -/
def GoNum.lt (a b : GoNum) : Bool :=
  decide (a.num * (b.den : Int) < b.num * (a.den : Int))

/-- Value-level equality on `GoNum`. -/
def GoNum.equal (a b : GoNum) : Bool :=
  decide (a.num * (b.den : Int) = b.num * (a.den : Int))

/-- Go `int` converted to `float64` (engine line `float64(v)`). -/
def intToGoNum (n : Int) : GoNum := ⟨n, 1⟩

/-- Dynamic context value, the model of Go's `interface{}` as stored in a
workflow context (`map[string]interface{}`). -/
inductive GoValue where
  | vFloat (q : GoNum)
  | vInt (n : Int)
  | vStr (s : String)
  | vBool (b : Bool)
  | vMap (entries : List (String × GoValue))
  | vNull
deriving Repr

/-- A workflow context: the model of Go's `map[string]interface{}`.
Keys are unique in every context the engine builds. -/
abbrev GoCtx := List (String × GoValue)

/-- First binding of a key in a context (Go map read `m[k]`). -/
def ctxGet (m : GoCtx) (k : String) : Option GoValue :=
  match m with
  | [] => none
  | (k₀, v₀) :: rest => if k₀ = k then some v₀ else ctxGet rest k

/-- Go map write `m[k] = v`: replace the first binding of `k`, or append. -/
def ctxSet (m : GoCtx) (k : String) (v : GoValue) : GoCtx :=
  match m with
  | [] => [(k, v)]
  | (k₀, v₀) :: rest => if k₀ = k then (k₀, v) :: rest else (k₀, v₀) :: ctxSet rest k v

/-- Model of Go's `strings.Split(s, ".")`. -/
def splitOnDot (l : List Char) : List (List Char) :=
  match l with
  | [] => [[]]
  | c :: cs =>
    if c = '.' then [] :: splitOnDot cs
    else
      match splitOnDot cs with
      | h :: t => (c :: h) :: t
      | [] => [[c]]

/-- Model of `getNestedValue` (workflow/gateway.go lines 13-28): walk the
dot-separated path, requiring every intermediate value to be a map. -/
def getNestedValueAux (cur : GoCtx) (parts : List String) : Option GoValue :=
  match parts with
  | [] => none
  | [part] => ctxGet cur part
  | part :: rest =>
    match ctxGet cur part with
    | some (GoValue.vMap next) => getNestedValueAux next rest
    | _ => none

/-- `getNestedValue` from workflow/gateway.go: `strings.Split(path, ".")`
then traversal. -/
def getNestedValue (m : GoCtx) (path : String) : Option GoValue :=
  getNestedValueAux m ((splitOnDot path.toList).map String.mk)

/-- Characters trimmed by the model of Go's `strings.TrimSpace`. -/
def goIsSpace (c : Char) : Bool :=
  c == ' ' || c == '\t' || c == '\n' || c == '\r'

/-- Drop leading space characters. -/
def dropSpaces (l : List Char) : List Char :=
  match l with
  | [] => []
  | c :: cs => if goIsSpace c then dropSpaces cs else c :: cs

/-- Model of Go's `strings.TrimSpace`. -/
def trimSpace (s : String) : String :=
  String.mk ((dropSpaces (dropSpaces s.toList).reverse).reverse)

/-- Split a character list at the first occurrence of `sep`; `none` when
`sep` does not occur.  Models the effect of Go's
`strings.Contains` / `strings.SplitN(s, sep, 2)` pair. -/
def splitAtFirst (sep : List Char) : List Char → Option (List Char × List Char)
  | [] => if sep = [] then some ([], []) else none
  | c :: cs =>
    if sep.isPrefixOf (c :: cs) then some ([], (c :: cs).drop sep.length)
    else
      match splitAtFirst sep cs with
      | some (before, after) => some (c :: before, after)
      | none => none

/-- Model of Go's `strings.Contains`. -/
def containsSub (s sub : String) : Bool :=
  (splitAtFirst sub.toList s.toList).isSome

/-- Model of Go's `strings.SplitN(s, sep, 2)` when `sep` occurs in `s`. -/
def splitN2 (s sep : String) : String × String :=
  match splitAtFirst sep.toList s.toList with
  | some (before, after) => (String.mk before, String.mk after)
  | none => (s, "")

/-- Bytewise lexicographic order on strings (UTF-8 byte order equals
code-point order, so Go's `<` on strings is code-point lexicographic). -/
def lexLt : List Char → List Char → Bool
  | [], [] => false
  | [], _ :: _ => true
  | _ :: _, [] => false
  | a :: as, b :: bs => if a < b then true else if b < a then false else lexLt as bs

/-- Go string `<`. -/
def goStrLt (a b : String) : Bool :=
  lexLt a.toList b.toList

/-- `compareStrings` from workflow/gateway.go lines 51-68. -/
def compareStrings (actual target op : String) : Except String Bool :=
  match op with
  | "==" => .ok (actual == target)
  | "!=" => .ok (actual != target)
  | ">" => .ok (goStrLt target actual)
  | "<" => .ok (goStrLt actual target)
  | ">=" => .ok (!goStrLt actual target)
  | "<=" => .ok (!goStrLt target actual)
  | _ => .error "unsupported string operator"

/-- `compareNumbers` from workflow/gateway.go lines 31-48. -/
def compareNumbers (actual target : GoNum) (op : String) : Except String Bool :=
  match op with
  | ">=" => .ok (GoNum.le target actual)
  | "<=" => .ok (GoNum.le actual target)
  | "==" => .ok (GoNum.equal actual target)
  | ">" => .ok (GoNum.lt target actual)
  | "<" => .ok (GoNum.lt actual target)
  | "!=" => .ok (!GoNum.equal actual target)
  | _ => .error "unsupported numeric operator"

/-- Numeric value of a digit list, most significant first. -/
def digitsToNat (l : List Char) : Nat :=
  l.foldl (fun n c => n * 10 + (c.toNat - '0'.toNat)) 0

/-- Read an optional leading sign; returns (isNegative, rest). -/
def readSign (l : List Char) : Bool × List Char :=
  match l with
  | '+' :: r => (false, r)
  | '-' :: r => (true, r)
  | r => (false, r)

/-- Mantissa and sign assembled into a `GoNum`, scaled by the exponent. -/
def assembleFloat (neg : Bool) (intDigits fracDigits : List Char) (expNeg : Bool)
    (expDigits : List Char) : GoNum :=
  let mantNum : Nat := digitsToNat intDigits * 10 ^ fracDigits.length + digitsToNat fracDigits
  let eScale : Nat := 10 ^ digitsToNat expDigits
  let n : Nat := if expNeg then mantNum else mantNum * eScale
  let d : Nat := if expNeg then 10 ^ fracDigits.length * eScale else 10 ^ fracDigits.length
  ⟨if neg then -(n : Int) else (n : Int), d⟩

/-- Model of Go's `strconv.ParseFloat(s, 64)` on the decimal grammar
`[+-]? digits [. digits?]? [(e|E) [+-]? digits]?` (the special forms
`Inf`, `NaN`, hex floats and digit underscores are not modelled; the
engine's workflows only use plain decimals).  The whole string must be
consumed. -/
def goParseFloat (s : String) : Option GoNum :=
  let p := readSign s.toList
  let intDigits := p.2.takeWhile Char.isDigit
  let afterInt := p.2.dropWhile Char.isDigit
  let fp : List Char × List Char :=
    match afterInt with
    | '.' :: rest => (rest.takeWhile Char.isDigit, rest.dropWhile Char.isDigit)
    | _ => ([], afterInt)
  if intDigits.isEmpty && fp.1.isEmpty then none
  else
    match fp.2 with
    | [] => some (assembleFloat p.1 intDigits fp.1 false [])
    | e :: rest =>
      if e == 'e' || e == 'E' then
        let ep := readSign rest
        let eDigits := ep.2.takeWhile Char.isDigit
        let eRest := ep.2.dropWhile Char.isDigit
        if eDigits.isEmpty || !eRest.isEmpty then none
        else some (assembleFloat p.1 intDigits fp.1 ep.1 eDigits)
      else none

/-- Model of scanning a float with Go's `fmt.Sscanf(s, "%f", &num)`: skip
leading spaces, then read the longest decimal-float token from the front;
trailing input is ignored (`Sscanf` does not require full consumption). -/
def goScanFloat (s : String) : Option GoNum :=
  let p := readSign (dropSpaces s.toList)
  let intDigits := p.2.takeWhile Char.isDigit
  let afterInt := p.2.dropWhile Char.isDigit
  let fp : List Char × List Char :=
    match afterInt with
    | '.' :: rest => (rest.takeWhile Char.isDigit, rest.dropWhile Char.isDigit)
    | _ => ([], afterInt)
  if intDigits.isEmpty && fp.1.isEmpty then none
  else
    match fp.2 with
    | e :: rest =>
      if e == 'e' || e == 'E' then
        let ep := readSign rest
        let eDigits := ep.2.takeWhile Char.isDigit
        if eDigits.isEmpty then some (assembleFloat p.1 intDigits fp.1 false [])
        else some (assembleFloat p.1 intDigits fp.1 ep.1 eDigits)
      else some (assembleFloat p.1 intDigits fp.1 false [])
    | [] => some (assembleFloat p.1 intDigits fp.1 false [])

/-- The operator probe order of `evaluateSimpleCondition`
(workflow/gateway.go line 79): multi-character operators first. -/
def operatorList : List String := [">=", "<=", "==", "!=", ">", "<"]

/-- The operator-scan loop of `evaluateSimpleCondition` (lines 84-91):
first operator of `operatorList` contained in the condition, with the
split parts. -/
def findConditionOp (condition : String) : Option (String × String × String) :=
  operatorList.findSome? fun o =>
    if containsSub condition o then
      let parts := splitN2 condition o
      some (o, parts.1, parts.2)
    else none

/-- `evaluateSimpleCondition` from workflow/gateway.go lines 73-149. -/
def evaluateSimpleCondition (condition : String) (context : GoCtx) : Except String Bool :=
  if condition = "" then .error "empty condition string provided"
  else
    match findConditionOp condition with
    | none => .error "unsupported condition format or missing operator"
    | some (op, lhs, rhs) =>
      let variablePath := trimSpace lhs
      let targetValueStr := trimSpace rhs
      match getNestedValue context variablePath with
      | none => .error "variable not found in context"
      | some actualValue =>
        match actualValue with
        | GoValue.vFloat v =>
          match goParseFloat targetValueStr with
          | some targetNum => compareNumbers v targetNum op
          | none => .error "type mismatch: cannot compare number with non-numeric string"
        | GoValue.vInt v =>
          match goParseFloat targetValueStr with
          | some targetNum => compareNumbers (intToGoNum v) targetNum op
          | none => .error "type mismatch: cannot compare number with non-numeric string"
        | GoValue.vStr v => compareStrings v targetValueStr op
        | _ => .error "unsupported variable type for comparison"

example : evaluateSimpleCondition "age >= 30" [("age", GoValue.vInt 31)] = .ok true := by rfl
example : evaluateSimpleCondition "age >= 30" [("age", GoValue.vInt 17)] = .ok false := by rfl
example : evaluateSimpleCondition "name == alice" [("name", GoValue.vStr "alice")] = .ok true := by rfl
example : (evaluateSimpleCondition "age >= 30" []).isOk = false := by rfl
example : goParseFloat "3.5e1" = some ⟨350, 10⟩ := by rfl
example : goScanFloat "12abc" = some ⟨12, 1⟩ := by rfl
example : goParseFloat "12abc" = none := by rfl
example :
    evaluateSimpleCondition "user.age < 5" [("user", GoValue.vMap [("age", GoValue.vInt 3)])]
      = .ok true := by rfl

/-- `SignalConfig` from workflow/types.go: signals to emit, catch or throw. -/
structure SignalConfig where
  emit : String := ""
  catchName : String := ""
  throw : String := ""
deriving Repr, DecidableEq

/-- `GatewayCondition` from workflow/types.go lines 52-57. -/
structure GatewayCondition where
  when : String := ""
  next : String := ""
  elseBranch : Bool := false
  signal : Option SignalConfig := none
deriving Repr, DecidableEq

/-- The `signalToThrow` extraction of `ResolveGatewayConditions`
(workflow/gateway.go lines 180-182): the condition's `signal.throw` when
present and non-empty, otherwise the empty string. -/
def signalToThrowOf (c : GatewayCondition) : String :=
  match c.signal with
  | some sc => if sc.throw != "" then sc.throw else ""
  | none => ""

/-- The scanning loop of `ResolveGatewayConditions` (workflow/gateway.go
lines 164-185): first condition whose `when` evaluates without error to
true (an evaluation error makes the branch not match and scanning
continues), or whose `when` is empty while `else` is set. -/
def findMatchedCondition (conditions : List GatewayCondition) (context : GoCtx) :
    Option GatewayCondition :=
  match conditions with
  | [] => none
  | c :: rest =>
    let met : Bool :=
      if c.when != "" then
        match evaluateSimpleCondition c.when context with
        | .error _ => false
        | .ok r => r
      else if c.elseBranch then true else false
    if met then some c else findMatchedCondition rest context

/-- `ResolveGatewayConditions` from workflow/gateway.go lines 153-193,
restricted to its inputs (the gateway's conditions list and the instance
context; the instance and node IDs only decorate log and error text). -/
def ResolveGatewayConditions (conditions : List GatewayCondition) (context : GoCtx) :
    Except String (String × String) :=
  if conditions.isEmpty then .error "gateway node has no conditions defined"
  else
    match findMatchedCondition conditions context with
    | some c =>
      if c.next = "" then .error "no matching gateway condition found"
      else .ok (c.next, signalToThrowOf c)
    | none => .error "no matching gateway condition found"

/-- Modelled from the amended reading of the spec: a condition matches
when its `when` is non-empty and evaluates (without error) to true, or
when its `when` is empty and its `else` flag is set. -/
def gatewayMatches (context : GoCtx) (c : GatewayCondition) : Bool :=
  if c.when = "" then c.elseBranch
  else
    match evaluateSimpleCondition c.when context with
    | .ok true => true
    | _ => false

/-- Modelled from the amended reading of the spec: scan in order, first
match wins and yields its `next` and optional throw-signal; an empty
conditions list, no matching condition, or a matching condition whose
`next` is empty all yield an error. -/
def specResolveGateway (conditions : List GatewayCondition) (context : GoCtx) :
    Except String (String × String) :=
  match conditions.find? (gatewayMatches context) with
  | some c =>
    if c.next = "" then .error "no matching gateway condition found"
    else .ok (c.next, signalToThrowOf c)
  | none =>
    if conditions.isEmpty then .error "gateway node has no conditions defined"
    else .error "no matching gateway condition found"

/-- The loop's per-condition test agrees with the spec-side match test. -/
theorem findMatchedCondition_eq_find (conditions : List GatewayCondition) (context : GoCtx) :
    findMatchedCondition conditions context = conditions.find? (gatewayMatches context) := by
  induction conditions with
  | nil => rfl
  | cons c rest ih =>
    show (if _ then some c else findMatchedCondition rest context) = _
    rw [List.find?]
    have hmet :
        (if c.when != "" then
          match evaluateSimpleCondition c.when context with
          | .error _ => false
          | .ok r => r
        else if c.elseBranch then true else false) = gatewayMatches context c := by
      unfold gatewayMatches
      by_cases hw : c.when = ""
      · simp [hw]
      · simp only [hw, if_false, bne_iff_ne, ne_eq, not_false_eq_true, if_true]
        cases hev : evaluateSimpleCondition c.when context with
        | error e => simp
        | ok r => cases r <;> simp
    rw [hmet]
    cases h : gatewayMatches context c <;> simp [h, ih]

/-- Claim C3, counterexample.  The claim states that a condition matches
"if its `when` expression evaluates to true or it has `else: true`".  For
the single condition `{when: "x == 1", else: true, next: "A"}` under the
context `x = 2`, the claim therefore predicts the resolver returns
`("A", no signal)`; the source consults `else` only when `when` is the
empty string, so the branch does not match and the resolver errors. -/
theorem resolveGateway_else_with_when_errors :
    (GatewayCondition.mk "x == 1" "A" true none).elseBranch = true
    ∧ ResolveGatewayConditions [GatewayCondition.mk "x == 1" "A" true none]
        [("x", GoValue.vInt 2)]
      = .error "no matching gateway condition found" := by
  constructor
  · rfl
  · rfl

/-- Claim C3, amended.  The gateway resolver scans the conditions in
order; a condition matches if its `when` is non-empty and evaluates
without error to true (an erroring `when` makes the branch not match and
scanning continues), or if its `when` is empty and it has `else: true`.
The first match wins and its `next` and optional throw-signal are
returned; an empty conditions list, no matching condition, or a first
match whose `next` is empty all produce an error. -/
theorem resolveGateway_correct (conditions : List GatewayCondition) (context : GoCtx) :
    ResolveGatewayConditions conditions context = specResolveGateway conditions context := by
  unfold ResolveGatewayConditions specResolveGateway
  rw [findMatchedCondition_eq_find]
  cases h : conditions.find? (gatewayMatches context) with
  | some c =>
    have hne : conditions.isEmpty = false := by
      cases conditions with
      | nil => simp [List.find?] at h
      | cons _ _ => rfl
    rw [hne]
    simp
  | none =>
    cases he : conditions.isEmpty with
    | true => simp
    | false => simp

/-- Claim C6.  Let a non-empty condition string split at the first probed
operator into `lhs op rhs`.  If the value resolved at the trimmed path is
a string, evaluation is exactly the string comparison against the trimmed
literal, whether or not the literal parses as a number; if the literal
does not parse as a number while the resolved value is numeric (float or
int), or if the path is missing from the context, evaluation returns an
error rather than a boolean. -/
theorem evaluateSimpleCondition_type_rules (condition : String) (context : GoCtx)
    (op lhs rhs : String) (hne : condition ≠ "")
    (hop : findConditionOp condition = some (op, lhs, rhs)) :
    (∀ s, getNestedValue context (trimSpace lhs) = some (GoValue.vStr s) →
      evaluateSimpleCondition condition context = compareStrings s (trimSpace rhs) op)
    ∧ (goParseFloat (trimSpace rhs) = none →
        (∀ q, getNestedValue context (trimSpace lhs) = some (GoValue.vFloat q) →
          (evaluateSimpleCondition condition context).isOk = false)
        ∧ (∀ n, getNestedValue context (trimSpace lhs) = some (GoValue.vInt n) →
          (evaluateSimpleCondition condition context).isOk = false))
    ∧ (getNestedValue context (trimSpace lhs) = none →
        (evaluateSimpleCondition condition context).isOk = false) :=
  by
  refine ⟨?_, fun hpf => ⟨?_, ?_⟩, ?_⟩
  · intro s hs
    simp [evaluateSimpleCondition, hne, hop, hs]
  · intro q hq
    simp [evaluateSimpleCondition, hne, hop, hq, hpf, Except.isOk, Except.toBool]
  · intro n hn
    simp [evaluateSimpleCondition, hne, hop, hn, hpf, Except.isOk, Except.toBool]
  · intro hmiss
    simp [evaluateSimpleCondition, hne, hop, hmiss, Except.isOk, Except.toBool]

/-- Claim C6, witness: the condition `name == 42` against a context where
`name` is the string `"42x"`—the literal `42` parses as a number, yet the
comparison is the string comparison; and the condition `age == x` against
`age` numeric errors, as does a missing path. -/
theorem evaluateSimpleCondition_type_rules_witness :
    ("name == 42" ≠ "")
    ∧ evaluateSimpleCondition "name == 42" [("name", GoValue.vStr "42x")] = .ok false
    ∧ (evaluateSimpleCondition "age == x" [("age", GoValue.vInt 7)]).isOk = false
    ∧ (evaluateSimpleCondition "age == 1" []).isOk = false := by
  have h1 := evaluateSimpleCondition_type_rules "name == 42" [("name", GoValue.vStr "42x")]
    "==" "name " " 42" (by decide) rfl
  have h2 := evaluateSimpleCondition_type_rules "age == x" [("age", GoValue.vInt 7)]
    "==" "age " " x" (by decide) rfl
  have h3 := evaluateSimpleCondition_type_rules "age == 1" [] "==" "age " " 1"
    (by decide) rfl
  refine ⟨by decide, ?_, ?_, ?_⟩
  · have := h1.1 "42x" rfl
    rw [this]
    rfl
  · exact (h2.2.1 rfl).2 7 rfl
  · exact h3.2.2 rfl

/-- `TimeoutConfig` from workflow/types.go. -/
structure TimeoutConfig where
  duration : String
  next : String
deriving Repr, DecidableEq

/-- `FormField` from workflow/types.go (the JSON field `type` is called
`fieldType` here because `type` is a Lean keyword). -/
structure FormField where
  name : String
  label : String := ""
  fieldType : String
  required : Bool := false
deriving Repr, DecidableEq

/-- `EndConfig` from workflow/types.go. -/
structure EndConfig where
  signal : Option SignalConfig := none
  html : String := ""
deriving Repr, DecidableEq

/-- `WorkflowNode` from workflow/types.go (the JSON field `type` is
`nodeType`; `ScriptConfig` is inlined to its only field `code`). -/
structure WorkflowNode where
  id : String
  nodeType : String
  name : String := ""
  next : String := ""
  fields : List FormField := []
  script : Option String := none
  conditions : List GatewayCondition := []
  endConfig : Option EndConfig := none
  timeout : Option TimeoutConfig := none
  signal : Option SignalConfig := none
deriving Repr, DecidableEq

/-- `Workflow` from workflow/types.go (metadata omitted: no claim touches
it). -/
structure Workflow where
  id : String
  name : String := ""
  nodes : List WorkflowNode
deriving Repr, DecidableEq

/-- `GetNodeByID` from the engine: linear scan of the definition's nodes. -/
def GetNodeByID (wf : Workflow) (nodeID : String) : Option WorkflowNode :=
  wf.nodes.find? fun n => n.id == nodeID

/-- A row of the `workflow_instance_nodes` table (db/sqlite.go lines
46-57): the append-only node-execution log. -/
structure NodeRow where
  id : String
  workflowInstanceId : String
  nodeId : String
  context : GoCtx
  waitingSignal : String
  expiresAt : Option Nat
  createdAt : Nat
  updatedAt : Nat
deriving Repr

/-- A row of the `workflow_instances` table (db/sqlite.go lines 35-44):
the instance head. -/
structure InstRow where
  id : String
  workflowId : String
  currentNodeInstanceId : String
  context : GoCtx
  waitingSignal : String
  expiresAt : Option Nat
  createdAt : Nat
  updatedAt : Nat
deriving Repr

/-- The persistent store: instance heads plus the append-only log. -/
structure DBState where
  instances : List InstRow
  nodeRows : List NodeRow
deriving Repr

/-- One atomic SQL statement (`DB.Exec`) of db/sqlite.go.  The source
wraps none of them in a transaction, so each op commits on its own and a
crash may fall between any two of them. -/
inductive DBOp where
  | insertInstance (row : InstRow)
  | insertNodeRow (row : NodeRow)
  | updateHead (instId : String) (newCurrent : String) (ctx : GoCtx) (waiting : String)
      (expires : Option Nat) (updatedAt : Nat)
  | setInitialHead (instId : String) (nodeInstId : String)
deriving Repr

/-- Effect of one statement on the store. -/
def applyOp (s : DBState) (op : DBOp) : DBState :=
  match op with
  | .insertInstance row => { s with instances := s.instances ++ [row] }
  | .insertNodeRow row => { s with nodeRows := s.nodeRows ++ [row] }
  | .updateHead instId newCurrent ctx waiting expires updatedAt =>
    { s with instances := s.instances.map fun r =>
        if r.id = instId then
          { r with currentNodeInstanceId := newCurrent, context := ctx,
                   waitingSignal := waiting, expiresAt := expires, updatedAt := updatedAt }
        else r }
  | .setInitialHead instId nodeInstId =>
    { s with instances := s.instances.map fun r =>
        if r.id = instId then { r with currentNodeInstanceId := nodeInstId } else r }

/-- Run a sequence of statements; a crash between two statements leaves
the store at `applyOps s (ops.take k)`. -/
def applyOps (s : DBState) (ops : List DBOp) : DBState :=
  ops.foldl applyOp s

/-- `SELECT ... FROM workflow_instances WHERE id = ?` (first row). -/
def getInstanceRow (s : DBState) (id : String) : Option InstRow :=
  s.instances.find? fun r => r.id == id

/-- `SELECT ... FROM workflow_instance_nodes WHERE id = ?` (first row). -/
def getNodeRow (s : DBState) (id : String) : Option NodeRow :=
  s.nodeRows.find? fun r => r.id == id

/-- `GetInstancesWaitingForSignal` from db/sqlite.go lines 225-241:
`SELECT id FROM workflow_instances WHERE waiting_signal = ?`. -/
def GetInstancesWaitingForSignal (s : DBState) (signalName : String) : List String :=
  (s.instances.filter fun r => r.waitingSignal == signalName).map fun r => r.id

/-- The node-instance ID generated by `UpdateInstanceCurrentNodeAndContext`
(db/sqlite.go line 148): node ID, instance ID and `now.UnixNano()`. -/
def newNodeInstanceId (newNodeID instanceID : String) (now : Nat) : String :=
  newNodeID ++ "-" ++ instanceID ++ "-" ++ toString now

/-- The statement sequence of `SaveNewInstance` (db/sqlite.go lines
96-135): three separate `DB.Exec` calls — insert the head with an empty
`current_node_instance_id`, insert the initial node row, then point the
head at it.  No transaction. -/
def saveNewInstanceOps (instanceID workflowID initialNodeID : String) (context : GoCtx)
    (waitingSignal : String) (expiresAt : Option Nat) (now : Nat) : List DBOp :=
  [ .insertInstance ⟨instanceID, workflowID, "", context, waitingSignal, expiresAt, now, now⟩,
    .insertNodeRow ⟨initialNodeID ++ "-" ++ instanceID, instanceID, initialNodeID, context,
      waitingSignal, expiresAt, now, now⟩,
    .setInitialHead instanceID (initialNodeID ++ "-" ++ instanceID) ]

/-- `SaveNewInstance` from db/sqlite.go: returns (instance ID, initial
node-instance ID) and the store after all three statements. -/
def SaveNewInstance (s : DBState) (instanceID workflowID initialNodeID : String)
    (context : GoCtx) (waitingSignal : String) (expiresAt : Option Nat) (now : Nat) :
    (String × String) × DBState :=
  ((instanceID, initialNodeID ++ "-" ++ instanceID),
    applyOps s (saveNewInstanceOps instanceID workflowID initialNodeID context waitingSignal
      expiresAt now))

/-- The statement sequence of `UpdateInstanceCurrentNodeAndContext`
(db/sqlite.go lines 139-174): two separate `DB.Exec` calls — insert the
new node row, then update the head.  No transaction, and no expected
current-execution-ID parameter: the `UPDATE` is keyed only by the
instance ID. -/
def updateInstanceOps (instanceID newNodeID : String) (newContext : GoCtx)
    (waitingSignal : String) (expiresAt : Option Nat) (now : Nat) : List DBOp :=
  [ .insertNodeRow ⟨newNodeInstanceId newNodeID instanceID now, instanceID, newNodeID,
      newContext, waitingSignal, expiresAt, now, now⟩,
    .updateHead instanceID (newNodeInstanceId newNodeID instanceID now) newContext
      waitingSignal expiresAt now ]

/-- `UpdateInstanceCurrentNodeAndContext` from db/sqlite.go: returns the
new node-instance ID and the store after both statements. -/
def UpdateInstanceCurrentNodeAndContext (s : DBState) (instanceID newNodeID : String)
    (newContext : GoCtx) (waitingSignal : String) (expiresAt : Option Nat) (now : Nat) :
    String × DBState :=
  (newNodeInstanceId newNodeID instanceID now,
    applyOps s (updateInstanceOps instanceID newNodeID newContext waitingSignal expiresAt now))

/-- `GetWorkflowDefinition`, restricted to the in-memory cache (the
disk-refill path only changes where the definition comes from, not any
claim under study). -/
def GetWorkflowDefinition (defs : List Workflow) (workflowID : String) : Option Workflow :=
  defs.find? fun w => w.id == workflowID

/-- The in-memory `WorkflowInstance` assembled by
`GetInstanceAndDefinition` (engine lines 378-426), restricted to the
fields the claims touch. -/
structure LoadedInstance where
  id : String
  workflowId : String
  currentNode : String
  currentNodeInstanceDBID : String
  context : GoCtx
  waitingSignal : String
  expiresAt : Option Nat
  workflowDef : Workflow
  currentNodeDef : WorkflowNode
deriving Repr

/-- `GetInstanceAndDefinition` from the engine: read the head, read the
current node row to recover the node definition ID, resolve the workflow
definition and the node definition; any miss is an error (`none`). -/
def GetInstanceAndDefinition (defs : List Workflow) (s : DBState) (instanceID : String) :
    Option LoadedInstance :=
  match getInstanceRow s instanceID with
  | none => none
  | some inst =>
    match getNodeRow s inst.currentNodeInstanceId with
    | none => none
    | some nodeRow =>
      match GetWorkflowDefinition defs inst.workflowId with
      | none => none
      | some wf =>
        match GetNodeByID wf nodeRow.nodeId with
        | none => none
        | some nodeDef =>
          some ⟨inst.id, inst.workflowId, nodeRow.nodeId, inst.currentNodeInstanceId,
            inst.context, inst.waitingSignal, inst.expiresAt, wf, nodeDef⟩

/-- The state transition of `advanceInstance` (engine lines 258-298):
re-load the instance, then append a node row and update the head via
`UpdateInstanceCurrentNodeAndContext` with the re-read context and the
preserved `expiresAt`.  The fire-and-forget `go ExecuteNextNode`
continuation touches no state by itself and is not part of the
transition. -/
def advanceInstance (defs : List Workflow) (s : DBState) (instanceID nextNodeID : String)
    (waitingSignal : Option String) (now : Nat) : Option (String × DBState) :=
  match GetInstanceAndDefinition defs s instanceID with
  | none => none
  | some inst =>
    let signalString := match waitingSignal with | some w => w | none => ""
    some (UpdateInstanceCurrentNodeAndContext s instanceID nextNodeID inst.context
      signalString inst.expiresAt now)

/-- The timeout goroutine of `ExecuteNextNode` (engine lines 184-211)
after its sleep: re-fetch the instance; if the head's current
node-instance ID still equals the armed one, advance to `timeout.next`
with no waiting signal; otherwise (or if the re-fetch fails) do
nothing. -/
def fireTimeout (defs : List Workflow) (s : DBState) (instanceID armedNodeInstanceDBID : String)
    (timeoutNext : String) (now : Nat) : DBState :=
  match GetInstanceAndDefinition defs s instanceID with
  | none => s
  | some currentInstance =>
    if currentInstance.currentNodeInstanceDBID = armedNodeInstanceDBID then
      match advanceInstance defs s instanceID timeoutNext none now with
      | some r => r.2
      | none => s
    else s

/-- The in-memory instance returned by `CreateNewInstance`, restricted to
the fields the claims touch. -/
structure CreatedInstance where
  id : String
  workflowId : String
  currentNode : String
  currentNodeInstanceDBID : String
  context : GoCtx
  waitingSignal : String
deriving Repr

/-- `CreateNewInstance` from the engine (lines 111-168): resolve the
definition, seed the initial context, require a `start_node`, take the
waiting signal from the start node's `signal.catch`, and persist via
`SaveNewInstance`.  The freshly generated UUID is passed in as
`instanceUUID`; the spawned initial execution touches no state by itself
and is not part of the transition. -/
def CreateNewInstance (defs : List Workflow) (s : DBState) (workflowID instanceUUID : String)
    (now : Nat) : Except String (CreatedInstance × DBState) :=
  match GetWorkflowDefinition defs workflowID with
  | none => .error "workflow definition not found"
  | some wf =>
    let initialContext : GoCtx := ctxSet [] "instanceID" (GoValue.vStr instanceUUID)
    match GetNodeByID wf "start_node" with
    | none => .error "workflow does not have a start_node"
    | some startNode =>
      let waitingSignal :=
        match startNode.signal with
        | some sc => if sc.catchName != "" then sc.catchName else ""
        | none => ""
      let r := SaveNewInstance s instanceUUID workflowID startNode.id initialContext
        waitingSignal none now
      .ok (⟨instanceUUID, workflowID, startNode.id, r.1.2, initialContext, waitingSignal⟩, r.2)

/-- One loop iteration of `ResumeWorkflowsBySignal` (part_000 lines
32-68): load the instance; on error skip it; otherwise clear the waiting
signal through `UpdateInstanceCurrentNodeAndContext`, keeping the node
definition ID, context and expiry.  The spawned `ExecuteNextNode` is not
part of the transition. -/
def resumeOne (defs : List Workflow) (st : DBState) (id : String) (now : Nat) : DBState :=
  match GetInstanceAndDefinition defs st id with
  | none => st
  | some inst =>
    (UpdateInstanceCurrentNodeAndContext st inst.id inst.currentNode inst.context ""
      inst.expiresAt now).2

/-- `ResumeWorkflowsBySignal` from part_000 lines 20-69: query the
waiting set once, then process each instance in order. -/
def ResumeWorkflowsBySignal (defs : List Workflow) (s : DBState) (signalName : String)
    (now : Nat) : DBState :=
  (GetInstancesWaitingForSignal s signalName).foldl
    (fun st id => resumeOne defs st id now) s

/-- Observable engine actions of the gateway branch of `ExecuteNextNode`
(engine lines 226-241), in program order. -/
inductive EngineEvent where
  | spawnEmit (signal : String)
  | advanceCall (instId nextNode : String)
deriving Repr, DecidableEq

/-- Program-order action list of the gateway branch of `ExecuteNextNode`
after `ResolveGatewayConditions` succeeded: when a signal is to be
thrown, its emit goroutine is spawned (lines 232-240) BEFORE
`advanceInstance` is invoked (line 241). -/
def gatewayStepEvents (instId nextNodeID signalToThrow : String) : List EngineEvent :=
  (if signalToThrow != "" then [EngineEvent.spawnEmit signalToThrow] else [])
    ++ [EngineEvent.advanceCall instId nextNodeID]

/-- The dynamic values a goja script evaluation can produce, as
discriminated by `EvaluateCondition` (db/sqlite.go part 2, lines
383-424): undefined, null, a boolean, or anything else. -/
inductive JSValue where
  | undef
  | nullv
  | boolean (b : Bool)
  | number (q : GoNum)
  | str (s : String)
  | object
deriving Repr, DecidableEq

/-- The result post-processing of `EvaluateCondition` (lines 416-423):
undefined and null become `false` without error, booleans pass through,
anything else is the non-boolean error. -/
def conditionResultOf (val : JSValue) : Except String Bool :=
  match val with
  | .undef => .ok false
  | .nullv => .ok false
  | .boolean b => .ok b
  | _ => .error "condition script did not return a boolean value"

/-- `EvaluateCondition`, parameterised by the outcome of the goja
`vm.RunString` call (the JavaScript engine is an external oracle; the
decoding and VM-setup failure paths likewise surface as `.error`). -/
def EvaluateCondition (runResult : Except String JSValue) : Except String Bool :=
  match runResult with
  | .error e => .error ("error evaluating condition script: " ++ e)
  | .ok v => conditionResultOf v

/-- Form-input lookup `input[field.Name]` (Go map of submitted values). -/
def lookupStr (input : List (String × String)) (k : String) : Option String :=
  (input.find? fun p => p.1 == k).map fun p => p.2

/-- The per-field conversion switch of `MergeFormInputIntoContext`
(part_001 lines 98-110). -/
def convertFormValue (fieldType val : String) : GoValue :=
  match fieldType with
  | "number" =>
    match goScanFloat val with
    | some num => GoValue.vFloat num
    | none => GoValue.vStr val
  | "text" => GoValue.vStr val
  | "email" => GoValue.vStr val
  | "textarea" => GoValue.vStr val
  | _ => GoValue.vStr val

/-- `MergeFormInputIntoContext` from part_001 lines 95-113: for each
declared field with a submitted value, store the converted value; other
keys are untouched. -/
def MergeFormInputIntoContext (context : GoCtx) (formFields : List FormField)
    (input : List (String × String)) : GoCtx :=
  formFields.foldl
    (fun ctx field =>
      match lookupStr input field.name with
      | some val => ctxSet ctx field.name (convertFormValue field.fieldType val)
      | none => ctx)
    context

/-- `find?` commutes with a map that preserves the predicate. -/
theorem find?_map_of_pred_pres {α : Type} (l : List α) (f : α → α) (p : α → Bool)
    (hf : ∀ a ∈ l, p (f a) = p a) :
    (l.map f).find? p = (l.find? p).map f := by
  induction l with
  | nil => rfl
  | cons a t ih =>
    simp only [List.map_cons, List.find?]
    rw [hf a (List.mem_cons_self a t)]
    cases h : p a with
    | true => simp
    | false => exact ih fun x hx => hf x (List.mem_cons_of_mem a hx)

/-- `find?` looks left first in an append. -/
theorem find?_append_left {α : Type} (l₁ l₂ : List α) (p : α → Bool) (x : α)
    (h : l₁.find? p = some x) : (l₁ ++ l₂).find? p = some x := by
  induction l₁ with
  | nil => simp [List.find?] at h
  | cons a t ih =>
    simp only [List.cons_append, List.find?] at h ⊢
    cases hp : p a with
    | true => rw [hp] at h; simpa [hp] using h
    | false => rw [hp] at h; exact ih h

/-- With pairwise-distinct keys, the first row found for a member's key
is that member itself. -/
theorem find?_key_of_nodup {α β : Type} [DecidableEq β] (l : List α) (key : α → β)
    (hn : (l.map key).Nodup) (r : α) (hr : r ∈ l) :
    l.find? (fun x => key x == key r) = some r := by
  induction l with
  | nil => cases hr
  | cons a t ih =>
    rcases List.mem_cons.mp hr with h | h
    · subst h
      simp [List.find?]
    · have hka : key a ≠ key r := by
        intro hEq
        have : key r ∈ t.map key := List.mem_map_of_mem key h
        rw [← hEq] at this
        exact (List.nodup_cons.mp hn).1 this
      have : (key a == key r) = false := by
        simp [hka]
      simp only [List.find?, this]
      exact ih (List.nodup_cons.mp hn).2 h

/-- An `updateHead` statement rewrites the found head row pointwise. -/
theorem getInstanceRow_updateHead (s : DBState) (instId newCurrent : String) (ctx : GoCtx)
    (waiting : String) (expires : Option Nat) (updatedAt : Nat) (id : String) :
    getInstanceRow (applyOp s (.updateHead instId newCurrent ctx waiting expires updatedAt)) id
      = (getInstanceRow s id).map fun r =>
          if r.id = instId then
            { r with currentNodeInstanceId := newCurrent, context := ctx,
                     waitingSignal := waiting, expiresAt := expires, updatedAt := updatedAt }
          else r := by
  unfold getInstanceRow applyOp
  exact find?_map_of_pred_pres _ _ _ fun r _ => by by_cases h : r.id = instId <;> simp [h]

/-- Claim C1, counterexample.  The store `s0` holds one paused instance
whose head is the node execution `E0`; both a signal resume and a
timeout handler capture `E0` as their cookie (first conjunct: at `s0`
the head is `E0`, so the timeout handler's re-read check passes).  The
signal resume commits its advance first (`a1`); the claim says this
atomically invalidates the other wake-up, whose expected execution ID
`E0` no longer matches.  But `UpdateInstanceCurrentNodeAndContext` has
no expected-execution-ID parameter at all — its `UPDATE` is keyed only
by the instance ID — so the second advance (`a2`) also commits: the head
moves again and a third node row is appended.  Two transitions out of
`E0` commit. -/
theorem advance_without_cas_cex :
    let ctx0 : GoCtx := [("instanceID", GoValue.vStr "inst1")]
    let s0 : DBState := ⟨[⟨"inst1", "wf1", "E0", ctx0, "go", none, 0, 0⟩],
                        [⟨"E0", "inst1", "form_node", ctx0, "go", none, 0, 0⟩]⟩
    let a1 := UpdateInstanceCurrentNodeAndContext s0 "inst1" "B" ctx0 "" none 1
    let a2 := UpdateInstanceCurrentNodeAndContext a1.2 "inst1" "T" ctx0 "" none 2
    ((getInstanceRow s0 "inst1").map fun r => r.currentNodeInstanceId) = some "E0"
    ∧ ((getInstanceRow a1.2 "inst1").map fun r => r.currentNodeInstanceId) = some a1.1
    ∧ a1.1 ≠ "E0"
    ∧ ((getInstanceRow a2.2 "inst1").map fun r => r.currentNodeInstanceId) = some a2.1
    ∧ a2.1 ≠ a1.1
    ∧ a2.2.nodeRows.length = 3 := by
  exact ⟨rfl, rfl, by decide, rfl, by decide, rfl⟩

/-- Claim C1, amended.  No advance supplies an expected current
execution ID: `UpdateInstanceCurrentNodeAndContext` is keyed only by the
instance ID and commits — appending the node row and repointing the head
— for every store in which the instance exists, whatever the head's
current node-execution ID is at that moment (in particular when it
differs from the execution the caller observed).  The only guard in the
engine is the timeout handler's non-atomic re-read (claim C4), so two
racing wake-ups for the same paused instance are not atomically
serialised. -/
theorem updateInstance_commits_regardless_of_head
    (s : DBState) (instanceID newNodeID : String) (ctx : GoCtx) (w : String)
    (e : Option Nat) (now : Nat) (r : InstRow)
    (hr : getInstanceRow s instanceID = some r) :
    ((getInstanceRow (UpdateInstanceCurrentNodeAndContext s instanceID newNodeID ctx w e now).2
        instanceID).map fun x => x.currentNodeInstanceId)
      = some (UpdateInstanceCurrentNodeAndContext s instanceID newNodeID ctx w e now).1
    ∧ (UpdateInstanceCurrentNodeAndContext s instanceID newNodeID ctx w e now).2.nodeRows
      = s.nodeRows ++ [⟨newNodeInstanceId newNodeID instanceID now, instanceID, newNodeID,
          ctx, w, e, now, now⟩] := by
  have hid : r.id = instanceID := by
    have := List.find?_some hr
    simpa using this
  constructor
  · have h1 : (UpdateInstanceCurrentNodeAndContext s instanceID newNodeID ctx w e now).2
        = applyOp (applyOp s (.insertNodeRow ⟨newNodeInstanceId newNodeID instanceID now,
            instanceID, newNodeID, ctx, w, e, now, now⟩))
          (.updateHead instanceID (newNodeInstanceId newNodeID instanceID now) ctx w e now) :=
      rfl
    rw [h1, getInstanceRow_updateHead]
    have h2 : getInstanceRow (applyOp s (.insertNodeRow ⟨newNodeInstanceId newNodeID
        instanceID now, instanceID, newNodeID, ctx, w, e, now, now⟩)) instanceID = some r := hr
    rw [h2]
    simp [hid, UpdateInstanceCurrentNodeAndContext]
  · rfl

/-- Claim C1, amended, witness: a store whose head has already moved to
`E1` while the caller still believes `E0`; the advance nevertheless
commits and repoints the head. -/
theorem updateInstance_commits_regardless_of_head_witness :
    getInstanceRow (⟨[⟨"inst1", "wf1", "E1", [], "", none, 0, 0⟩], []⟩ : DBState) "inst1"
      = some ⟨"inst1", "wf1", "E1", [], "", none, 0, 0⟩
    ∧ ((getInstanceRow (UpdateInstanceCurrentNodeAndContext
          (⟨[⟨"inst1", "wf1", "E1", [], "", none, 0, 0⟩], []⟩ : DBState)
          "inst1" "T" [] "" none 2).2 "inst1").map fun x => x.currentNodeInstanceId)
      = some "T-inst1-2" := by
  refine ⟨rfl, ?_⟩
  have h := (updateInstance_commits_regardless_of_head
    (⟨[⟨"inst1", "wf1", "E1", [], "", none, 0, 0⟩], []⟩ : DBState)
    "inst1" "T" [] "" none 2 ⟨"inst1", "wf1", "E1", [], "", none, 0, 0⟩ rfl).1
  exact h.trans rfl

/-- Claim C2, counterexample.  `UpdateInstanceCurrentNodeAndContext`
issues two separate `DB.Exec` statements with no enclosing transaction
(db/sqlite.go lines 149-171: two independent `DB.Exec` calls, no
`Begin`/`Commit`), so a crash can fall between them; after the first
statement alone the store holds the appended node-execution row while
the instance head still points at the old execution — exactly the torn
state the claim says is impossible. -/
theorem updateInstance_not_transactional_cex :
    let ctx0 : GoCtx := [("instanceID", GoValue.vStr "inst1")]
    let s0 : DBState :=
      ⟨[⟨"inst1", "wf1", "start_node-inst1", ctx0, "", none, 0, 0⟩],
       [⟨"start_node-inst1", "inst1", "start_node", ctx0, "", none, 0, 0⟩]⟩
    let ops := updateInstanceOps "inst1" "B" ctx0 "" none 7
    let mid := applyOps s0 (ops.take 1)
    ops.length ≠ 1
    ∧ (getNodeRow mid "B-inst1-7").isSome = true
    ∧ ((getInstanceRow mid "inst1").map fun r => r.currentNodeInstanceId)
        = some "start_node-inst1" := by
  exact ⟨by decide, rfl, rfl⟩

/-- Claim C2, amended.  The advancement primitive appends the new
node-execution row and updates the instance head in two separate,
untransacted statements: after both the store holds the appended row and
the repointed, rewritten head, but after a crash between them it holds
the appended row with the head unchanged.  New-instance creation
likewise uses three separate statements (head insert with empty pointer,
node-row insert, head repoint). -/
theorem updateInstance_two_separate_statements
    (s : DBState) (instanceID newNodeID : String) (ctx : GoCtx) (w : String)
    (e : Option Nat) (now : Nat) (r : InstRow)
    (hr : getInstanceRow s instanceID = some r) :
    (updateInstanceOps instanceID newNodeID ctx w e now).length = 2
    ∧ (applyOps s ((updateInstanceOps instanceID newNodeID ctx w e now).take 1)).nodeRows
        = s.nodeRows ++ [⟨newNodeInstanceId newNodeID instanceID now, instanceID, newNodeID,
            ctx, w, e, now, now⟩]
    ∧ getInstanceRow (applyOps s ((updateInstanceOps instanceID newNodeID ctx w e now).take 1))
        instanceID = some r
    ∧ (applyOps s (updateInstanceOps instanceID newNodeID ctx w e now)).nodeRows
        = s.nodeRows ++ [⟨newNodeInstanceId newNodeID instanceID now, instanceID, newNodeID,
            ctx, w, e, now, now⟩]
    ∧ getInstanceRow (applyOps s (updateInstanceOps instanceID newNodeID ctx w e now)) instanceID
        = some { r with currentNodeInstanceId := newNodeInstanceId newNodeID instanceID now,
                        context := ctx, waitingSignal := w, expiresAt := e, updatedAt := now }
    ∧ ∀ (iid wid nid : String) (c : GoCtx) (w₂ : String) (e₂ : Option Nat) (t : Nat),
        (saveNewInstanceOps iid wid nid c w₂ e₂ t).length = 3
        ∧ (applyOps s ((saveNewInstanceOps iid wid nid c w₂ e₂ t).take 2)).instances
            = s.instances ++ [⟨iid, wid, "", c, w₂, e₂, t, t⟩]
        ∧ (applyOps s ((saveNewInstanceOps iid wid nid c w₂ e₂ t).take 2)).nodeRows
            = s.nodeRows ++ [⟨nid ++ "-" ++ iid, iid, nid, c, w₂, e₂, t, t⟩] := by
  have hid : r.id = instanceID := by
    have := List.find?_some hr
    simpa using this
  refine ⟨rfl, rfl, hr, rfl, ?_, ?_⟩
  · have h1 : applyOps s (updateInstanceOps instanceID newNodeID ctx w e now)
        = applyOp (applyOp s (.insertNodeRow ⟨newNodeInstanceId newNodeID instanceID now,
            instanceID, newNodeID, ctx, w, e, now, now⟩))
          (.updateHead instanceID (newNodeInstanceId newNodeID instanceID now) ctx w e now) :=
      rfl
    rw [h1, getInstanceRow_updateHead]
    have h2 : getInstanceRow (applyOp s (.insertNodeRow ⟨newNodeInstanceId newNodeID
        instanceID now, instanceID, newNodeID, ctx, w, e, now, now⟩)) instanceID = some r := hr
    rw [h2]
    simp [hid]
  · intro iid wid nid c w₂ e₂ t
    exact ⟨rfl, rfl, rfl⟩

/-- Claim C2, amended, witness: the amended theorem applied at the
concrete one-instance store. -/
theorem updateInstance_two_separate_statements_witness :
    getInstanceRow (⟨[⟨"inst1", "wf1", "E0", [], "", none, 0, 0⟩], []⟩ : DBState) "inst1"
      = some ⟨"inst1", "wf1", "E0", [], "", none, 0, 0⟩
    ∧ getInstanceRow (applyOps (⟨[⟨"inst1", "wf1", "E0", [], "", none, 0, 0⟩], []⟩ : DBState)
        (updateInstanceOps "inst1" "B" [] "" none 7)) "inst1"
      = some ⟨"inst1", "wf1", "B-inst1-7", [], "", none, 0, 7⟩ := by
  refine ⟨rfl, ?_⟩
  have h := (updateInstance_two_separate_statements
    (⟨[⟨"inst1", "wf1", "E0", [], "", none, 0, 0⟩], []⟩ : DBState)
    "inst1" "B" [] "" none 7 ⟨"inst1", "wf1", "E0", [], "", none, 0, 0⟩ rfl).2.2.2.2.1
  exact h.trans rfl

/-- Full inversion of a successful `GetInstanceAndDefinition`. -/
theorem load_facts {defs : List Workflow} {s : DBState} {instanceID : String}
    {inst : LoadedInstance} (h : GetInstanceAndDefinition defs s instanceID = some inst) :
    ∃ r nr wf nd, getInstanceRow s instanceID = some r
      ∧ getNodeRow s r.currentNodeInstanceId = some nr
      ∧ GetWorkflowDefinition defs r.workflowId = some wf
      ∧ GetNodeByID wf nr.nodeId = some nd
      ∧ inst = ⟨r.id, r.workflowId, nr.nodeId, r.currentNodeInstanceId, r.context,
          r.waitingSignal, r.expiresAt, wf, nd⟩ := by
  unfold GetInstanceAndDefinition at h
  split at h
  · cases h
  · rename_i r hr
    split at h
    · cases h
    · rename_i nr hn
      split at h
      · cases h
      · rename_i wf hw
        split at h
        · cases h
        · rename_i nd hd
          cases h
          exact ⟨r, nr, wf, nd, hr, hn, hw, hd, rfl⟩

/-- The head row as rewritten by an `updateHead` statement. -/
def advancedRow (r : InstRow) (newId : String) (ctx : GoCtx) (w : String) (e : Option Nat)
    (now : Nat) : InstRow :=
  { r with currentNodeInstanceId := newId, context := ctx, waitingSignal := w,
           expiresAt := e, updatedAt := now }

/-- Effect of the advancement primitive on the instance head. -/
theorem getInstanceRow_after_update (s : DBState) (instanceID newNodeID : String)
    (ctx : GoCtx) (w : String) (e : Option Nat) (now : Nat) (r : InstRow)
    (hr : getInstanceRow s instanceID = some r) :
    getInstanceRow (UpdateInstanceCurrentNodeAndContext s instanceID newNodeID ctx w e now).2
        instanceID
      = some (advancedRow r (newNodeInstanceId newNodeID instanceID now) ctx w e now) := by
  have hid : r.id = instanceID := by
    have := List.find?_some hr
    simpa using this
  have h1 : (UpdateInstanceCurrentNodeAndContext s instanceID newNodeID ctx w e now).2
      = applyOp (applyOp s (.insertNodeRow ⟨newNodeInstanceId newNodeID instanceID now,
          instanceID, newNodeID, ctx, w, e, now, now⟩))
        (.updateHead instanceID (newNodeInstanceId newNodeID instanceID now) ctx w e now) :=
    rfl
  rw [h1, getInstanceRow_updateHead]
  have h2 : getInstanceRow (applyOp s (.insertNodeRow ⟨newNodeInstanceId newNodeID
      instanceID now, instanceID, newNodeID, ctx, w, e, now, now⟩)) instanceID = some r := hr
  rw [h2]
  simp [hid, advancedRow]

/-- Claim C4.  When an armed timeout fires, the handler re-reads the
instance; if and only if the head's current node-execution ID still
equals the armed execution ID, the instance is transitioned to
`timeout.next` — head repointed to the appended row for `timeout.next`,
waiting signal cleared, context (and expiry) unchanged; otherwise the
firing is discarded with no state change at all. -/
theorem fireTimeout_cookie_check (defs : List Workflow) (s : DBState)
    (instanceID armedId timeoutNext : String) (now : Nat) (inst : LoadedInstance)
    (hload : GetInstanceAndDefinition defs s instanceID = some inst) :
    (inst.currentNodeInstanceDBID ≠ armedId →
      fireTimeout defs s instanceID armedId timeoutNext now = s)
    ∧ (inst.currentNodeInstanceDBID = armedId →
      ((getInstanceRow (fireTimeout defs s instanceID armedId timeoutNext now) instanceID).map
          fun x => (x.currentNodeInstanceId, x.waitingSignal, x.context, x.expiresAt))
        = some (newNodeInstanceId timeoutNext instanceID now, "", inst.context, inst.expiresAt)
      ∧ (fireTimeout defs s instanceID armedId timeoutNext now).nodeRows
        = s.nodeRows ++ [⟨newNodeInstanceId timeoutNext instanceID now, instanceID,
            timeoutNext, inst.context, "", inst.expiresAt, now, now⟩]) := by
  obtain ⟨r, nr, wf, nd, hr, hn, hw, hd, hinst⟩ := load_facts hload
  constructor
  · intro hne
    simp only [fireTimeout, hload]
    rw [if_neg hne]
  · intro heq
    have hfire : fireTimeout defs s instanceID armedId timeoutNext now
        = (UpdateInstanceCurrentNodeAndContext s instanceID timeoutNext inst.context ""
            inst.expiresAt now).2 := by
      simp only [fireTimeout, hload, advanceInstance]
      rw [if_pos heq]
    constructor
    · rw [hfire, getInstanceRow_after_update s instanceID timeoutNext inst.context ""
        inst.expiresAt now r hr]
      simp [advancedRow]
    · rw [hfire]
      rfl

/-- Claim C4, witness: a one-instance store paused at a form node with
head execution `E0`; firing with the matching cookie `E0` transitions to
`T` and clears the waiting state, firing with a stale cookie `EX` leaves
the store untouched. -/
theorem fireTimeout_cookie_check_witness :
    let wfs : List Workflow :=
      [⟨"wf1", "", [⟨"form_node", "form", "", "B", [], none, [], none, none, none⟩,
                    ⟨"T", "script", "", "", [], none, [], none, none, none⟩]⟩]
    let s0 : DBState :=
      ⟨[⟨"i1", "wf1", "E0", [], "go", none, 0, 0⟩],
       [⟨"E0", "i1", "form_node", [], "go", none, 0, 0⟩]⟩
    ((getInstanceRow (fireTimeout wfs s0 "i1" "E0" "T" 9) "i1").map
        fun x => (x.currentNodeInstanceId, x.waitingSignal, x.context, x.expiresAt))
      = some ("T-i1-9", "", ([] : GoCtx), (none : Option Nat))
    ∧ fireTimeout wfs s0 "i1" "EX" "T" 9 = s0 := by
  intro wfs s0
  have h := fireTimeout_cookie_check wfs s0 "i1" "E0" "T" 9
    ⟨"i1", "wf1", "form_node", "E0", [], "go", none,
      ⟨"wf1", "", [⟨"form_node", "form", "", "B", [], none, [], none, none, none⟩,
                   ⟨"T", "script", "", "", [], none, [], none, none, none⟩]⟩,
      ⟨"form_node", "form", "", "B", [], none, [], none, none, none⟩⟩ rfl
  have h₂ := fireTimeout_cookie_check wfs s0 "i1" "EX" "T" 9
    ⟨"i1", "wf1", "form_node", "E0", [], "go", none,
      ⟨"wf1", "", [⟨"form_node", "form", "", "B", [], none, [], none, none, none⟩,
                   ⟨"T", "script", "", "", [], none, [], none, none, none⟩]⟩,
      ⟨"form_node", "form", "", "B", [], none, [], none, none, none⟩⟩ rfl
  exact ⟨((h.2 rfl).1).trans rfl, h₂.1 (by decide)⟩

/-- Claim C7, counterexample.  In the gateway branch of
`ExecuteNextNode` (engine lines 226-241), the goroutine that emits the
thrown signal is spawned (line 234) BEFORE `advanceInstance` is invoked
(line 241): the program-order action list puts the emit spawn strictly
before the advancement call, so the emission is initiated before the
transition is durably recorded — the claimed order
(advance first, then emit) is not the one the code produces — and Go
gives the spawned goroutine no ordering with respect to the later
commit, so the emit can execute before it. -/
theorem gatewayThrow_spawn_before_advance_cex :
    gatewayStepEvents "inst1" "B" "approved"
      = [EngineEvent.spawnEmit "approved", EngineEvent.advanceCall "inst1" "B"]
    ∧ gatewayStepEvents "inst1" "B" "approved"
      ≠ [EngineEvent.advanceCall "inst1" "B", EngineEvent.spawnEmit "approved"] := by
  exact ⟨rfl, by decide⟩

/-- Claim C7, amended.  When a matched gateway branch carries a
non-empty signal to throw, the engine spawns the goroutine that emits it
strictly before invoking the advancement of the instance to the branch's
`next` node; the emission is concurrent with the advancement and is not
ordered after the durable commit. -/
theorem gatewayThrow_spawn_precedes_advance (instId nextNode sig : String) (h : sig ≠ "") :
    gatewayStepEvents instId nextNode sig
      = [EngineEvent.spawnEmit sig, EngineEvent.advanceCall instId nextNode] := by
  simp [gatewayStepEvents, h]

/-- Claim C7, amended, witness. -/
theorem gatewayThrow_spawn_precedes_advance_witness :
    ("go" ≠ "")
    ∧ gatewayStepEvents "i1" "n1" "go"
      = [EngineEvent.spawnEmit "go", EngineEvent.advanceCall "i1" "n1"] :=
  ⟨by decide, gatewayThrow_spawn_precedes_advance "i1" "n1" "go" (by decide)⟩

/-- Claim C8, counterexample.  The claim says every non-boolean script
result — explicitly including undefined and null — is an error;
`EvaluateCondition` (db/sqlite.go part 2, lines 416-418) instead maps
undefined and null to `false` with no error. -/
theorem evaluateCondition_undefined_not_error :
    EvaluateCondition (Except.ok JSValue.undef) = Except.ok false
    ∧ EvaluateCondition (Except.ok JSValue.nullv) = Except.ok false :=
  ⟨rfl, rfl⟩

/-- Claim C8, amended.  `EvaluateCondition` returns a boolean exactly
for boolean results (passed through unchanged) and for undefined and
null results (both coerced to `false` without error); every other result
value, and every failed evaluation, is an error. -/
theorem evaluateCondition_result_characterisation :
    (∀ v : JSValue,
      (EvaluateCondition (Except.ok v) = Except.ok true ↔ v = JSValue.boolean true)
      ∧ (EvaluateCondition (Except.ok v) = Except.ok false
          ↔ (v = JSValue.boolean false ∨ v = JSValue.undef ∨ v = JSValue.nullv))
      ∧ ((EvaluateCondition (Except.ok v)).isOk = false
          ↔ (∀ b, v ≠ JSValue.boolean b) ∧ v ≠ JSValue.undef ∧ v ≠ JSValue.nullv))
    ∧ ∀ e, (EvaluateCondition (Except.error e)).isOk = false := by
  constructor
  · intro v
    refine ⟨?_, ?_, ?_⟩ <;>
      cases v <;>
        simp [EvaluateCondition, conditionResultOf, Except.isOk, Except.toBool]
  · intro e
    rfl

/-- Claim C9.  Whenever `CreateNewInstance` succeeds, the new instance's
context is exactly the single binding of `"instanceID"` to the generated
instance UUID — in particular non-empty — and the initial node-execution
row is appended with that same singleton context snapshot. -/
theorem createNewInstance_seeds_context (defs : List Workflow) (s : DBState)
    (workflowID uuid : String) (now : Nat) (inst : CreatedInstance) (s₂ : DBState)
    (h : CreateNewInstance defs s workflowID uuid now = .ok (inst, s₂)) :
    inst.context = [("instanceID", GoValue.vStr uuid)]
    ∧ inst.context ≠ []
    ∧ ∃ nodeId w, s₂.nodeRows = s.nodeRows ++ [⟨nodeId ++ "-" ++ uuid, uuid, nodeId,
        [("instanceID", GoValue.vStr uuid)], w, none, now, now⟩] := by
  unfold CreateNewInstance at h
  split at h
  · cases h
  · rename_i wf hw
    split at h
    · cases h
    · rename_i startNode hd
      cases h
      refine ⟨rfl, by simp [ctxSet], ?_⟩
      exact ⟨startNode.id,
        (match startNode.signal with
          | some sc => if sc.catchName != "" then sc.catchName else ""
          | none => ""), rfl⟩

/-- Claim C9, witness: creating an instance of a one-node workflow whose
`start_node` catches no signal. -/
theorem createNewInstance_seeds_context_witness :
    let wfs : List Workflow :=
      [⟨"wf1", "", [⟨"start_node", "start", "", "B", [], none, [], none, none, none⟩]⟩]
    let r := CreateNewInstance wfs ⟨[], []⟩ "wf1" "u1" 3
    ∃ inst s₂, r = .ok (inst, s₂)
      ∧ inst.context = [("instanceID", GoValue.vStr "u1")]
      ∧ inst.context ≠ [] := by
  intro wfs r
  refine ⟨⟨"u1", "wf1", "start_node", "start_node-u1",
    [("instanceID", GoValue.vStr "u1")], ""⟩,
    ⟨[⟨"u1", "wf1", "start_node-u1", [("instanceID", GoValue.vStr "u1")], "", none, 3, 3⟩],
     [⟨"start_node-u1", "u1", "start_node", [("instanceID", GoValue.vStr "u1")], "",
        none, 3, 3⟩]⟩, rfl, ?_, ?_⟩
  · exact (createNewInstance_seeds_context wfs ⟨[], []⟩ "wf1" "u1" 3 _ _ rfl).1
  · exact (createNewInstance_seeds_context wfs ⟨[], []⟩ "wf1" "u1" 3 _ _ rfl).2.1

/-- One loop iteration of `MergeFormInputIntoContext`. -/
def mergeStep (input : List (String × String)) (ctx : GoCtx) (field : FormField) : GoCtx :=
  match lookupStr input field.name with
  | some val => ctxSet ctx field.name (convertFormValue field.fieldType val)
  | none => ctx

theorem merge_eq_foldl (ctx : GoCtx) (fields : List FormField)
    (input : List (String × String)) :
    MergeFormInputIntoContext ctx fields input = fields.foldl (mergeStep input) ctx := rfl

theorem mergeStep_of_none {input : List (String × String)} {f : FormField} (ctx : GoCtx)
    (hv : lookupStr input f.name = none) : mergeStep input ctx f = ctx := by
  simp [mergeStep, hv]

theorem mergeStep_of_some {input : List (String × String)} {f : FormField} {v : String}
    (ctx : GoCtx) (hv : lookupStr input f.name = some v) :
    mergeStep input ctx f = ctxSet ctx f.name (convertFormValue f.fieldType v) := by
  simp [mergeStep, hv]

theorem ctxGet_ctxSet_self (m : GoCtx) (k : String) (v : GoValue) :
    ctxGet (ctxSet m k v) k = some v := by
  induction m with
  | nil => simp [ctxSet, ctxGet]
  | cons p rest ih =>
    obtain ⟨k₀, v₀⟩ := p
    by_cases h : k₀ = k
    · simp [ctxSet, ctxGet, h]
    · simp [ctxSet, ctxGet, h, ih]

theorem ctxGet_ctxSet_ne (m : GoCtx) (k k₂ : String) (v : GoValue) (h : k ≠ k₂) :
    ctxGet (ctxSet m k v) k₂ = ctxGet m k₂ := by
  induction m with
  | nil => simp [ctxSet, ctxGet, h]
  | cons p rest ih =>
    obtain ⟨k₀, v₀⟩ := p
    by_cases h₀ : k₀ = k
    · subst h₀
      simp [ctxSet, ctxGet, h]
    · simp [ctxSet, ctxGet, h₀, ih]

/-- Keys for which no declared field carries a submitted value are left
unchanged by the merge fold. -/
theorem mergeFold_preserves (input : List (String × String)) (k : String) :
    ∀ (fields : List FormField) (ctx : GoCtx),
      (∀ f ∈ fields, f.name = k → lookupStr input k = none) →
      ctxGet (fields.foldl (mergeStep input) ctx) k = ctxGet ctx k := by
  intro fields
  induction fields with
  | nil => intro ctx _; rfl
  | cons f rest ih =>
    intro ctx hf
    have htail : ∀ f₂ ∈ rest, f₂.name = k → lookupStr input k = none :=
      fun f₂ h₂ => hf f₂ (List.mem_cons_of_mem f h₂)
    rw [List.foldl_cons]
    by_cases hk : f.name = k
    · have hnone : lookupStr input f.name = none := by
        rw [hk]; exact hf f (List.mem_cons_self f rest) hk
      rw [mergeStep_of_none ctx hnone]
      exact ih ctx htail
    · cases hv : lookupStr input f.name with
      | none =>
        rw [mergeStep_of_none ctx hv]
        exact ih ctx htail
      | some v =>
        rw [mergeStep_of_some ctx hv, ih _ htail]
        exact ctxGet_ctxSet_ne ctx f.name k _ hk

/-- The per-field conversion switch collapses to the claim's two-way
description: `number` fields parse-or-keep, every other type stores the
raw string. -/
theorem convertFormValue_eq (t v : String) :
    convertFormValue t v
      = if t = "number" then
          (match goScanFloat v with
           | some num => GoValue.vFloat num
           | none => GoValue.vStr v)
        else GoValue.vStr v := by
  by_cases h : t = "number"
  · subst h
    rfl
  · rw [if_neg h]
    unfold convertFormValue
    split
    · exact absurd rfl h
    all_goals rfl

/-- A declared field with a submitted value ends up bound to the
converted value, provided field names are pairwise distinct. -/
theorem mergeFold_sets (input : List (String × String)) :
    ∀ (fields : List FormField) (ctx : GoCtx), (fields.map fun f => f.name).Nodup →
      ∀ f ∈ fields, ∀ v, lookupStr input f.name = some v →
      ctxGet (fields.foldl (mergeStep input) ctx) f.name
        = some (convertFormValue f.fieldType v) := by
  intro fields
  induction fields with
  | nil => intro ctx _ f hf; cases hf
  | cons g rest ih =>
    intro ctx hnodup f hf v hv
    rcases List.mem_cons.mp hf with hfg | hfr
    · subst hfg
      rw [List.foldl_cons, mergeStep_of_some ctx hv]
      have hrest : ∀ f₂ ∈ rest, f₂.name = f.name → lookupStr input f.name = none := by
        intro f₂ h₂ hname
        have hmem : f.name ∈ rest.map fun x => x.name := by
          rw [← hname]
          exact List.mem_map_of_mem (fun x => x.name) h₂
        exact absurd hmem (List.nodup_cons.mp hnodup).1
      rw [mergeFold_preserves input f.name rest _ hrest, ctxGet_ctxSet_self]
    · rw [List.foldl_cons]
      exact ih (mergeStep input ctx g) (List.nodup_cons.mp hnodup).2 f hfr v hv

/-- Claim C10.  With pairwise-distinct declared field names:
any context key for which no declared field carries a submitted value —
in particular every undeclared submission key and every key not named by
a submitted field — is left unchanged; and every declared field with a
submitted value ends up bound to a float64 when its type is `number` and
the value scans as a number, to the raw string when its type is `number`
and the value does not scan, and to the raw string for `text`, `email`,
`textarea` and every other type. -/
theorem mergeFormInput_rules (ctx : GoCtx) (fields : List FormField)
    (input : List (String × String)) (hnodup : (fields.map fun f => f.name).Nodup) :
    (∀ k, (∀ f ∈ fields, f.name = k → lookupStr input k = none) →
      ctxGet (MergeFormInputIntoContext ctx fields input) k = ctxGet ctx k)
    ∧ (∀ f ∈ fields, ∀ v, lookupStr input f.name = some v →
      ctxGet (MergeFormInputIntoContext ctx fields input) f.name
        = some (if f.fieldType = "number" then
            (match goScanFloat v with
             | some num => GoValue.vFloat num
             | none => GoValue.vStr v)
          else GoValue.vStr v)) := by
  constructor
  · intro k hk
    rw [merge_eq_foldl]
    exact mergeFold_preserves input k fields ctx hk
  · intro f hf v hv
    rw [merge_eq_foldl, mergeFold_sets input fields ctx hnodup f hf v hv,
      convertFormValue_eq]

/-- Claim C10, witness: a number field whose value scans, a text field,
an undeclared submission key (`junk`) and an unnamed context key
(`keep`). -/
theorem mergeFormInput_rules_witness :
    let fields : List FormField := [⟨"age", "", "number", false⟩, ⟨"name", "", "text", false⟩]
    let input : List (String × String) := [("age", "42"), ("name", "bob"), ("junk", "x")]
    let ctx : GoCtx := [("keep", GoValue.vStr "k"), ("junk", GoValue.vStr "old")]
    ctxGet (MergeFormInputIntoContext ctx fields input) "keep" = some (GoValue.vStr "k")
    ∧ ctxGet (MergeFormInputIntoContext ctx fields input) "junk" = some (GoValue.vStr "old")
    ∧ ctxGet (MergeFormInputIntoContext ctx fields input) "age"
        = some (GoValue.vFloat ⟨42, 1⟩)
    ∧ ctxGet (MergeFormInputIntoContext ctx fields input) "name"
        = some (GoValue.vStr "bob") := by
  intro fields input ctx
  have h := mergeFormInput_rules ctx fields input (by decide)
  refine ⟨?_, ?_, ?_, ?_⟩
  · exact (h.1 "keep" (by decide)).trans rfl
  · exact (h.1 "junk" (by decide)).trans rfl
  · exact (h.2 ⟨"age", "", "number", false⟩ (List.mem_cons_self _ _) "42" rfl).trans rfl
  · exact (h.2 ⟨"name", "", "text", false⟩
      (List.mem_cons_of_mem _ (List.mem_cons_self _ _)) "bob" rfl).trans rfl

/-- The head row of a waiting instance after its signal resume: waiting
signal cleared, head repointed at the freshly appended row for the same
node definition ID, context and expiry carried over. -/
def clearedInstRow (s : DBState) (r : InstRow) (now : Nat) : InstRow :=
  match getNodeRow s r.currentNodeInstanceId with
  | some nr => advancedRow r (newNodeInstanceId nr.nodeId r.id now) r.context "" r.expiresAt now
  | none => r

theorem advancedRow_id (r : InstRow) (newId : String) (ctx : GoCtx) (w : String)
    (e : Option Nat) (now : Nat) : (advancedRow r newId ctx w e now).id = r.id := rfl

theorem clearedInstRow_id (s : DBState) (r : InstRow) (now : Nat) :
    (clearedInstRow s r now).id = r.id := by
  unfold clearedInstRow
  split <;> rfl

/-- Loading an instance is unaffected by rewriting other instances'
rows (id-preserving, fixed on this instance) and appending node rows. -/
theorem load_extended (defs : List Workflow) (s₀ : DBState) (g : InstRow → InstRow)
    (extra : List NodeRow) (id : String) (inst : LoadedInstance)
    (hg_id : ∀ r ∈ s₀.instances, (g r).id = r.id)
    (hg_fix : ∀ r ∈ s₀.instances, r.id = id → g r = r)
    (h : GetInstanceAndDefinition defs s₀ id = some inst) :
    GetInstanceAndDefinition defs ⟨s₀.instances.map g, s₀.nodeRows ++ extra⟩ id = some inst := by
  obtain ⟨r, nr, wf, nd, hr, hn, hw, hd, hinst⟩ := load_facts h
  have hrmem : r ∈ s₀.instances := List.mem_of_find?_eq_some hr
  have hrid : r.id = id := by
    have := List.find?_some hr
    simpa using this
  have hr₂ : getInstanceRow ⟨s₀.instances.map g, s₀.nodeRows ++ extra⟩ id = some r := by
    show (s₀.instances.map g).find? (fun x => x.id == id) = some r
    rw [find?_map_of_pred_pres _ g _ (fun a ha => by rw [hg_id a ha])]
    have : s₀.instances.find? (fun x => x.id == id) = some r := hr
    rw [this]
    show some (g r) = some r
    rw [hg_fix r hrmem hrid]
  have hn₂ : getNodeRow ⟨s₀.instances.map g, s₀.nodeRows ++ extra⟩ r.currentNodeInstanceId
      = some nr := by
    show (s₀.nodeRows ++ extra).find? (fun x => x.id == r.currentNodeInstanceId) = some nr
    exact find?_append_left _ _ _ _ hn
  simp only [GetInstanceAndDefinition, hr₂, hn₂, hw, hd]
  rw [hinst]

/-- Two rows of a nodup-keyed list with the same key are equal. -/
theorem row_eq_of_id_eq (l : List InstRow) (hn : (l.map fun r => r.id).Nodup)
    (x y : InstRow) (hx : x ∈ l) (hy : y ∈ l) (hxy : x.id = y.id) : x = y :=
  List.inj_on_of_nodup_map hn hx hy hxy

/-- Characterisation of the signal-resume loop: processing a duplicate-free
list of waiting-instance IDs clears exactly those instances (each load
succeeding against the original store), appends node rows, and touches
nothing else. -/
theorem resume_fold_char (defs : List Workflow) (s₀ : DBState) (now : Nat)
    (hids : (s₀.instances.map fun r => r.id).Nodup) :
    ∀ (R : List String) (g : InstRow → InstRow) (extra : List NodeRow),
      R.Nodup →
      (∀ r ∈ s₀.instances, (g r).id = r.id) →
      (∀ id ∈ R, ∀ r ∈ s₀.instances, r.id = id → g r = r) →
      (∀ id ∈ R, ∃ inst, GetInstanceAndDefinition defs s₀ id = some inst) →
      ∃ extra₂,
        R.foldl (fun st id => resumeOne defs st id now)
            ⟨s₀.instances.map g, s₀.nodeRows ++ extra⟩
          = ⟨s₀.instances.map (fun r => if r.id ∈ R then clearedInstRow s₀ r now else g r),
             s₀.nodeRows ++ extra₂⟩ := by
  intro R
  induction R with
  | nil =>
    intro g extra _ _ _ _
    exact ⟨extra, rfl⟩
  | cons id R' ih =>
    intro g extra hnd hg_id hg_fix hload
    obtain ⟨inst, hinst_load⟩ := hload id (List.mem_cons_self id R')
    obtain ⟨r, nr, wf, nd, hr, hn, hw, hd, hinst⟩ := load_facts hinst_load
    subst hinst
    have hrmem : r ∈ s₀.instances := List.mem_of_find?_eq_some hr
    have hrid : r.id = id := by
      have := List.find?_some hr
      simpa using this
    have hload_st : GetInstanceAndDefinition defs
        ⟨s₀.instances.map g, s₀.nodeRows ++ extra⟩ id
        = some ⟨r.id, r.workflowId, nr.nodeId, r.currentNodeInstanceId, r.context,
            r.waitingSignal, r.expiresAt, wf, nd⟩ :=
      load_extended defs s₀ g extra id _ hg_id
        (hg_fix id (List.mem_cons_self id R')) hinst_load
    have hstep : resumeOne defs ⟨s₀.instances.map g, s₀.nodeRows ++ extra⟩ id now
        = (UpdateInstanceCurrentNodeAndContext ⟨s₀.instances.map g, s₀.nodeRows ++ extra⟩
            r.id nr.nodeId r.context "" r.expiresAt now).2 := by
      simp only [resumeOne, hload_st]
    have hstate : resumeOne defs ⟨s₀.instances.map g, s₀.nodeRows ++ extra⟩ id now
        = ⟨s₀.instances.map (fun x => if x.id = id then clearedInstRow s₀ x now else g x),
           s₀.nodeRows ++ (extra ++ [⟨newNodeInstanceId nr.nodeId r.id now, r.id, nr.nodeId,
             r.context, "", r.expiresAt, now, now⟩])⟩ := by
      rw [hstep]
      have h_inst_eq : (UpdateInstanceCurrentNodeAndContext
          ⟨s₀.instances.map g, s₀.nodeRows ++ extra⟩
          r.id nr.nodeId r.context "" r.expiresAt now).2.instances
          = (s₀.instances.map g).map (fun x =>
              if x.id = r.id then
                advancedRow x (newNodeInstanceId nr.nodeId r.id now) r.context "" r.expiresAt now
              else x) := rfl
      have h_rows_eq : (UpdateInstanceCurrentNodeAndContext
          ⟨s₀.instances.map g, s₀.nodeRows ++ extra⟩
          r.id nr.nodeId r.context "" r.expiresAt now).2.nodeRows
          = (s₀.nodeRows ++ extra) ++ [⟨newNodeInstanceId nr.nodeId r.id now, r.id, nr.nodeId,
              r.context, "", r.expiresAt, now, now⟩] := rfl
      calc (UpdateInstanceCurrentNodeAndContext ⟨s₀.instances.map g, s₀.nodeRows ++ extra⟩
            r.id nr.nodeId r.context "" r.expiresAt now).2
          = ⟨(UpdateInstanceCurrentNodeAndContext ⟨s₀.instances.map g, s₀.nodeRows ++ extra⟩
              r.id nr.nodeId r.context "" r.expiresAt now).2.instances,
             (UpdateInstanceCurrentNodeAndContext ⟨s₀.instances.map g, s₀.nodeRows ++ extra⟩
              r.id nr.nodeId r.context "" r.expiresAt now).2.nodeRows⟩ := rfl
        _ = _ := by
            rw [h_inst_eq, h_rows_eq, List.map_map, List.append_assoc]
            congr 1
            apply List.map_congr_left
            intro x hx
            show (if (g x).id = r.id then advancedRow (g x) _ _ _ _ _ else g x) = _
            rw [hg_id x hx]
            by_cases hxid : x.id = id
            · rw [if_pos (by rw [hxid, hrid]), if_pos hxid]
              rw [hg_fix id (List.mem_cons_self id R') x hx hxid]
              have hxr : x = r := row_eq_of_id_eq s₀.instances hids x r hx hrmem
                (by rw [hxid, hrid])
              rw [hxr]
              unfold clearedInstRow
              rw [hn]
            · rw [if_neg (fun hcon => hxid (by rw [hcon, hrid])), if_neg hxid]
    have hg₁_id : ∀ x ∈ s₀.instances,
        ((fun x => if x.id = id then clearedInstRow s₀ x now else g x) x).id = x.id := by
      intro x hx
      by_cases hxid : x.id = id
      · simp only [if_pos hxid, clearedInstRow_id]
      · simp only [if_neg hxid, hg_id x hx]
    have hg₁_fix : ∀ id₂ ∈ R', ∀ x ∈ s₀.instances, x.id = id₂ →
        (fun x => if x.id = id then clearedInstRow s₀ x now else g x) x = x := by
      intro id₂ h₂ x hx hxid
      have hne : x.id ≠ id := by
        rw [hxid]
        intro hcon
        exact (List.nodup_cons.mp hnd).1 (hcon ▸ h₂)
      simp only [if_neg hne]
      exact hg_fix id₂ (List.mem_cons_of_mem id h₂) x hx hxid
    obtain ⟨extra₂, hfold⟩ := ih (fun x => if x.id = id then clearedInstRow s₀ x now else g x)
      (extra ++ [⟨newNodeInstanceId nr.nodeId r.id now, r.id, nr.nodeId, r.context, "",
        r.expiresAt, now, now⟩])
      (List.nodup_cons.mp hnd).2 hg₁_id hg₁_fix
      (fun id₂ h₂ => hload id₂ (List.mem_cons_of_mem id h₂))
    refine ⟨extra₂, ?_⟩
    rw [List.foldl_cons, hstate, hfold]
    congr 1
    apply List.map_congr_left
    intro x hx
    by_cases hR' : x.id ∈ R'
    · rw [if_pos hR', if_pos (List.mem_cons_of_mem id hR')]
    · rw [if_neg hR']
      by_cases hxid : x.id = id
      · rw [if_pos hxid, if_pos (by rw [hxid]; exact List.mem_cons_self id R')]
      · rw [if_neg hxid, if_neg (fun hcon => by
          rcases List.mem_cons.mp hcon with h | h
          · exact hxid h
          · exact hR' h)]

/-- Claim C5.  For a (non-empty) signal name: emitting advances exactly
the set of instances whose `waiting_signal` equals the name at the
moment the registry queries the store — each such instance ends up
cleared and repointed (`clearedInstRow`), every other instance row is
untouched — afterwards no instance waits for that name, a duplicate emit
of the same name changes nothing, and an emit with no matching instances
is a no-op (the source returns success, not an error, in that case). -/
theorem signalEmit_exact_idempotent (defs : List Workflow) (s : DBState)
    (signalName : String) (now now₂ : Nat)
    (hname : signalName ≠ "")
    (hids : (s.instances.map fun r => r.id).Nodup)
    (hload : ∀ r ∈ s.instances, r.waitingSignal = signalName →
      ∃ inst, GetInstanceAndDefinition defs s r.id = some inst) :
    (∀ r ∈ s.instances, r.waitingSignal = signalName →
      getInstanceRow (ResumeWorkflowsBySignal defs s signalName now) r.id
        = some (clearedInstRow s r now))
    ∧ (∀ r ∈ s.instances, r.waitingSignal ≠ signalName →
      getInstanceRow (ResumeWorkflowsBySignal defs s signalName now) r.id = some r)
    ∧ (∀ x ∈ (ResumeWorkflowsBySignal defs s signalName now).instances,
        x.waitingSignal ≠ signalName)
    ∧ ResumeWorkflowsBySignal defs (ResumeWorkflowsBySignal defs s signalName now)
        signalName now₂ = ResumeWorkflowsBySignal defs s signalName now
    ∧ (GetInstancesWaitingForSignal s signalName = [] →
      ResumeWorkflowsBySignal defs s signalName now = s) := by
  have hmemR : ∀ i : String, i ∈ GetInstancesWaitingForSignal s signalName ↔
      ∃ r ∈ s.instances, r.waitingSignal = signalName ∧ r.id = i := by
    intro i
    simp [GetInstancesWaitingForSignal, List.mem_filter]
    constructor
    · rintro ⟨r, ⟨hr, hw⟩, hid⟩
      exact ⟨r, hr, hw, hid⟩
    · rintro ⟨r, hr, hw, hid⟩
      exact ⟨r, ⟨hr, hw⟩, hid⟩
  have hRnodup : (GetInstancesWaitingForSignal s signalName).Nodup :=
    List.Nodup.sublist (List.Sublist.map _ (List.filter_sublist _)) hids
  have hloadR : ∀ i ∈ GetInstancesWaitingForSignal s signalName,
      ∃ inst, GetInstanceAndDefinition defs s i = some inst := by
    intro i hi
    obtain ⟨r, hr, hw, hid⟩ := (hmemR i).mp hi
    obtain ⟨inst, hinst⟩ := hload r hr hw
    exact ⟨inst, hid ▸ hinst⟩
  obtain ⟨extra₂, hfold⟩ := resume_fold_char defs s now hids
    (GetInstancesWaitingForSignal s signalName) (fun r => r) []
    hRnodup (fun r _ => rfl) (fun _ _ r _ _ => rfl) hloadR
  have hstart : (⟨s.instances.map (fun r => r), s.nodeRows ++ []⟩ : DBState) = s := by
    simp
  have hmain : ResumeWorkflowsBySignal defs s signalName now
      = ⟨s.instances.map (fun r =>
          if r.id ∈ GetInstancesWaitingForSignal s signalName
          then clearedInstRow s r now else r),
         s.nodeRows ++ extra₂⟩ := by
    have h0 : (GetInstancesWaitingForSignal s signalName).foldl
        (fun st id => resumeOne defs st id now) s
        = (GetInstancesWaitingForSignal s signalName).foldl
          (fun st id => resumeOne defs st id now)
          ⟨s.instances.map (fun r => r), s.nodeRows ++ []⟩ := by
      rw [hstart]
    exact h0.trans hfold
  have hpred : ∀ (i : String), ∀ a ∈ s.instances,
      (((fun r => if r.id ∈ GetInstancesWaitingForSignal s signalName
         then clearedInstRow s r now else r) a).id == i) = (a.id == i) := by
    intro i a _
    by_cases h : a.id ∈ GetInstancesWaitingForSignal s signalName
    · simp only [if_pos h, clearedInstRow_id]
    · simp only [if_neg h]
  have hwaitR : ∀ r ∈ s.instances, r.id ∈ GetInstancesWaitingForSignal s signalName →
      r.waitingSignal = signalName := by
    intro r hr hin
    obtain ⟨r₂, hr₂, hw₂, hid₂⟩ := (hmemR r.id).mp hin
    rw [← row_eq_of_id_eq s.instances hids r₂ r hr₂ hr hid₂]
    exact hw₂
  have hcleared_wait : ∀ r ∈ s.instances, r.waitingSignal = signalName →
      (clearedInstRow s r now).waitingSignal = "" := by
    intro r hr hw
    obtain ⟨inst, hinst⟩ := hload r hr hw
    obtain ⟨r₀, nr, wf₀, nd, hr₀, hn, _, _, _⟩ := load_facts hinst
    have h1 : getInstanceRow s r.id = some r := by
      show s.instances.find? (fun x => x.id == r.id) = some r
      exact find?_key_of_nodup s.instances (fun x => x.id) hids r hr
    have hr₀r : r₀ = r := by
      have := h1.symm.trans hr₀
      exact (Option.some_injective _ this).symm
    rw [hr₀r] at hn
    unfold clearedInstRow
    rw [hn]
    rfl
  have hfound : ∀ r ∈ s.instances,
      getInstanceRow (ResumeWorkflowsBySignal defs s signalName now) r.id
        = some (if r.id ∈ GetInstancesWaitingForSignal s signalName
            then clearedInstRow s r now else r) := by
    intro r hr
    rw [hmain]
    show (s.instances.map (fun r₂ => if r₂.id ∈ GetInstancesWaitingForSignal s signalName
        then clearedInstRow s r₂ now else r₂)).find? (fun x => x.id == r.id)
      = some (if r.id ∈ GetInstancesWaitingForSignal s signalName
          then clearedInstRow s r now else r)
    rw [find?_map_of_pred_pres _ _ _ (hpred r.id)]
    rw [find?_key_of_nodup s.instances (fun x => x.id) hids r hr]
    rfl
  refine ⟨?_, ?_, ?_, ?_, ?_⟩
  · intro r hr hw
    rw [hfound r hr,
      if_pos ((hmemR r.id).mpr ⟨r, hr, hw, rfl⟩)]
  · intro r hr hw
    have hnotR : r.id ∉ GetInstancesWaitingForSignal s signalName :=
      fun hin => hw (hwaitR r hr hin)
    rw [hfound r hr, if_neg hnotR]
  · intro x hx
    rw [hmain] at hx
    obtain ⟨r, hr, hxr⟩ := List.mem_map.mp hx
    by_cases hin : r.id ∈ GetInstancesWaitingForSignal s signalName
    · rw [if_pos hin] at hxr
      rw [← hxr, hcleared_wait r hr (hwaitR r hr hin)]
      exact fun hcon => hname hcon.symm
    · rw [if_neg hin] at hxr
      rw [← hxr]
      exact fun hcon => hin ((hmemR r.id).mpr ⟨r, hr, hcon, rfl⟩)
  · have hempty : GetInstancesWaitingForSignal
        (ResumeWorkflowsBySignal defs s signalName now) signalName = [] := by
      unfold GetInstancesWaitingForSignal
      have : (ResumeWorkflowsBySignal defs s signalName now).instances.filter
          (fun r => r.waitingSignal == signalName) = [] := by
        rw [List.filter_eq_nil_iff]
        intro a ha
        have hne : a.waitingSignal ≠ signalName := by
          intro hcon
          have h3 : ∀ x ∈ (ResumeWorkflowsBySignal defs s signalName now).instances,
              x.waitingSignal ≠ signalName := by
            intro x hx
            rw [hmain] at hx
            obtain ⟨r, hr, hxr⟩ := List.mem_map.mp hx
            by_cases hin : r.id ∈ GetInstancesWaitingForSignal s signalName
            · rw [if_pos hin] at hxr
              rw [← hxr, hcleared_wait r hr (hwaitR r hr hin)]
              exact fun hcon₂ => hname hcon₂.symm
            · rw [if_neg hin] at hxr
              rw [← hxr]
              exact fun hcon₂ => hin ((hmemR r.id).mpr ⟨r, hr, hcon₂, rfl⟩)
          exact h3 a ha hcon
        simp [hne]
      rw [this]
      rfl
    show (GetInstancesWaitingForSignal (ResumeWorkflowsBySignal defs s signalName now)
        signalName).foldl (fun st id => resumeOne defs st id now₂)
        (ResumeWorkflowsBySignal defs s signalName now)
      = ResumeWorkflowsBySignal defs s signalName now
    rw [hempty]
    rfl
  · intro hempty
    show (GetInstancesWaitingForSignal s signalName).foldl
        (fun st id => resumeOne defs st id now) s = s
    rw [hempty]
    rfl

/-- Claim C5, witness: two instances, one waiting for `go`; the emit
clears and repoints exactly the waiting one, leaves the other untouched,
and a duplicate emit is a no-op. -/
theorem signalEmit_exact_idempotent_witness :
    let wfs : List Workflow :=
      [⟨"wf1", "", [⟨"start_node", "start", "", "B", [], none, [], none, none, none⟩]⟩]
    let s0 : DBState :=
      ⟨[⟨"i1", "wf1", "E1", [], "go", none, 0, 0⟩, ⟨"i2", "wf1", "E2", [], "", none, 0, 0⟩],
       [⟨"E1", "i1", "start_node", [], "go", none, 0, 0⟩,
        ⟨"E2", "i2", "start_node", [], "", none, 0, 0⟩]⟩
    getInstanceRow (ResumeWorkflowsBySignal wfs s0 "go" 5) "i1"
      = some ⟨"i1", "wf1", "start_node-i1-5", [], "", none, 0, 5⟩
    ∧ getInstanceRow (ResumeWorkflowsBySignal wfs s0 "go" 5) "i2"
      = some ⟨"i2", "wf1", "E2", [], "", none, 0, 0⟩
    ∧ ResumeWorkflowsBySignal wfs (ResumeWorkflowsBySignal wfs s0 "go" 5) "go" 9
      = ResumeWorkflowsBySignal wfs s0 "go" 5 := by
  intro wfs s0
  have hl : ∀ r ∈ s0.instances, r.waitingSignal = "go" →
      ∃ inst, GetInstanceAndDefinition wfs s0 r.id = some inst := by
    intro r hr hw
    rcases List.mem_cons.mp hr with h1 | h1
    · subst h1
      exact ⟨_, rfl⟩
    · rcases List.mem_cons.mp h1 with h2 | h2
      · subst h2
        exact absurd hw (by decide)
      · cases h2
  have h := signalEmit_exact_idempotent wfs s0 "go" 5 9 (by decide) (by decide) hl
  refine ⟨?_, ?_, h.2.2.2.1⟩
  · exact (h.1 _ (List.mem_cons_self _ _) rfl).trans rfl
  · exact (h.2.1 _ (List.mem_cons_of_mem _ (List.mem_cons_self _ _)) (by decide)).trans rfl
